import Mathlib

/-!
Shallow embedding of `src/require/Document.cjs` (react-to-dynamic-markup).

The repository's core is the `Document` class: the recursive serializer
`renderToString`, the tag/attribute serializer `parseTag` (with its attribute
classification loop), the identifier counter and listener registry stored on
the instance, and the top-level `renderToDynamicMarkup` wrapper.

Modelling decisions:
* JavaScript's dynamic values become the inductive type `JSVal`; machine
  numbers are modelled as `Int` (no claim exercises fractional values).
* Function values carry an index `code` into a component environment
  `ComponentEnv` (giving the behaviour of the callable when invoked with two
  arguments - JavaScript passes `undefined` for a missing argument) plus the
  source text returned by `Function.prototype.toString`.
* The mutable instance fields `this.identifier` and `this.listeners` become an
  explicit state `RState` threaded through the recursion; the remaining
  instance fields live in `Document`.
* `async`/`await` sequencing in the source is strictly sequential, so the
  embedding is direct state passing; recursion through component expansion is
  unbounded in the source (no cycle detection), so the embedding takes a fuel
  parameter and returns `none` when fuel runs out or a JavaScript runtime
  error (e.g. `Object.entries(null)`) would be thrown.
-/

inductive JSVal where
  | undef
  | null
  | bool (b : Bool)
  | num (n : Int)
  | str (s : String)
  | symbol (description : String)
  | fn (code : Nat) (src : String)
  | arr (elements : List JSVal)
  | obj (fields : List (String × JSVal))

/-- JavaScript `typeof`. -/
def jsTypeof : JSVal → String
  | .undef => "undefined"
  | .null => "object"
  | .bool _ => "boolean"
  | .num _ => "number"
  | .str _ => "string"
  | .symbol _ => "symbol"
  | .fn _ _ => "function"
  | .arr _ => "object"
  | .obj _ => "object"

/-- String coercion of non-array values (template literals, `String(x)`). -/
def jsCoerceScalar : JSVal → String
  | .undef => "undefined"
  | .null => "null"
  | .bool b => cond b "true" "false"
  | .num n => Int.repr n
  | .str s => s
  | .symbol _ => ""
  | .fn _ src => src
  | .arr _ => ""
  | .obj _ => "[object Object]"

/-- String coercion as performed by template literals: arrays join their
elements with "," rendering `null`/`undefined` elements as empty (nested
arrays are modelled one level deep; no claim nests arrays in coercion
position). Coercing a symbol throws in JavaScript; the serializer never
reaches that case (symbols are filtered before every coercion site). -/
def jsCoerce : JSVal → String
  | .arr elements =>
    String.intercalate "," (elements.map fun v =>
      match v with
      | .null => ""
      | .undef => ""
      | v => jsCoerceScalar v)
  | v => jsCoerceScalar v

/-- JavaScript `value.toString()`: throws (`none`) on `null`/`undefined`,
and symbols stringify via `Symbol.prototype.toString`. -/
def jsToStringMethod : JSVal → Option String
  | .undef => none
  | .null => none
  | .symbol d => some ("Symbol(" ++ d ++ ")")
  | v => some (jsCoerce v)

/-- Property access `v.key` for the keys the serializer reads; on
non-objects it yields `undefined` exactly as JavaScript does for the
properties involved (`type`, `props`, `children`). -/
def getField : JSVal → String → JSVal
  | .obj fields, key => (fields.lookup key).getD JSVal.undef
  | _, _ => JSVal.undef

/-- JavaScript truthiness. -/
def truthy : JSVal → Bool
  | .undef => false
  | .null => false
  | .bool b => b
  | .num n => n != 0
  | .str s => s != ""
  | _ => true

/-- `Object.entries`, for the value shapes the serializer feeds it.
(`Object.entries(null)` throws; callers of this function guard the `null`
case separately.) -/
def objEntries : JSVal → List (String × JSVal)
  | .obj fields => fields
  | .arr elements => elements.enum.map fun p => (Nat.repr p.1, p.2)
  | .str s => s.toList.enum.map fun p => (Nat.repr p.1, JSVal.str (String.singleton p.2))
  | _ => []

/-- The spread-update `{...props, children: value}` from `renderToString`'s
function-component branch: keeps insertion order, overriding an existing
`children` entry in place. -/
def setChildren (props : JSVal) (value : JSVal) : JSVal :=
  let fields := objEntries props
  if fields.any (fun p => p.1 == "children") then
    .obj (fields.map fun p => if p.1 == "children" then ("children", value) else p)
  else
    .obj (fields ++ [("children", value)])

/-- `value.toString()` for a function value (its recorded source text). -/
def fnSource : JSVal → String
  | .fn _ src => src
  | _ => ""

/-- The `Object.entries(value).map(([key, value]) => key + ":" + value.toString())`
part of the style branch of `parseTag`; `none` models the `TypeError` thrown
by `.toString()` on a `null`/`undefined` style entry. -/
def styleEntryTexts : List (String × JSVal) → Option (List String)
  | [] => some []
  | p :: rest =>
    match jsToStringMethod p.2 with
    | none => none
    | some s => (styleEntryTexts rest).map fun l => (p.1 ++ ":" ++ s) :: l

/-- The whole style branch text: the mapped entries joined with `';'`;
`none` also models `Object.entries(null)` throwing. -/
def styleText : JSVal → Option String
  | .null => none
  | v => (styleEntryTexts (objEntries v)).map (String.intercalate ";")

/-- JavaScript `String.prototype.toLowerCase` (ASCII, which covers every
key the serializer compares; defined over the character list so that it
evaluates by kernel reduction). -/
def jsToLowerCase (s : String) : String :=
  String.mk (s.data.map Char.toLower)

/-- JavaScript `String.prototype.startsWith` (again over character lists). -/
def jsStartsWith (s pre : String) : Bool :=
  pre.data.isPrefixOf s.data

/-- Is this JavaScript's `true`? (the `value === true` test). -/
def isTrueVal : JSVal → Bool
  | .bool true => true
  | _ => false

/-- One iteration of the `Object.entries(attributes).forEach` loop in
`parseTag`. The accumulator carries the html text built so far, the
`eventListeners` list of `(event type, handler source)` pairs, and the
`children` value. -/
def attrEntry (acc : String × List (String × String) × JSVal) (kv : String × JSVal) :
    Option (String × List (String × String) × JSVal) :=
  let (html, eventListeners, children) := acc
  let (key, value) := kv
  if key == "children" then
    some (html, eventListeners, value)
  else if jsStartsWith (jsToLowerCase key) "on" && jsTypeof value == "function" then
    some (html, eventListeners ++ [(jsToLowerCase (key.drop 2), fnSource value)], children)
  else if jsToLowerCase key == "style" && jsTypeof value == "object" then
    match styleText value with
    | none => none
    | some t => some (html ++ " style=\"" ++ t ++ "\"", eventListeners, children)
  else if jsTypeof value == "boolean" then
    some (if isTrueVal value then html ++ " " ++ key else html, eventListeners, children)
  else if jsTypeof value != "symbol" then
    let key := if key == "className" then "class" else key
    some (html ++ " " ++ key ++ "=\"" ++ jsCoerce value ++ "\"", eventListeners, children)
  else
    some (html, eventListeners, children)

/-- The whole `forEach` loop over the attribute entries. -/
def foldAttrs : (String × List (String × String) × JSVal) → List (String × JSVal) →
    Option (String × List (String × String) × JSVal)
  | acc, [] => some acc
  | acc, kv :: rest =>
    match attrEntry acc kv with
    | none => none
    | some acc' => foldAttrs acc' rest

/-- The render-pass state: the `this.identifier` counter and the
`this.listeners` registry of the `Document` instance. -/
structure RState where
  identifier : Nat
  listeners : List String
deriving DecidableEq

/-- The minted identifier: the template literal `type + "_" + identifier`. -/
def mkIdentifier (ty : JSVal) (counter : Nat) : String :=
  jsCoerce ty ++ "_" ++ Nat.repr counter

/-- The script fragment pushed onto `this.listeners` for one identified
element. -/
def listenerScript (identifier : String) (eventListeners : List (String × String)) : String :=
  "const " ++ identifier ++ " = document.querySelector(\x27[data-identifier=\"" ++
    identifier ++ "\"]\x27);\n" ++
  String.intercalate "\n" (eventListeners.map fun ev =>
    identifier ++ ".addEventListener(\"" ++ ev.1 ++ "\", " ++ ev.2 ++ ");")

/-- `Document.parseTag`, parameterised by the renderer used for the
children (the caller passes `renderToString` at the remaining fuel). -/
def parseTag (render : JSVal → RState → Option (String × RState))
    (ty : JSVal) (attributes : List (String × JSVal)) (st : RState) :
    Option (String × RState) :=
  match foldAttrs ("<" ++ jsCoerce ty, [], JSVal.str "") attributes with
  | none => none
  | some (html, eventListeners, children) =>
    let (html, st) :=
      if eventListeners.length > 0 then
        let identifier := mkIdentifier ty st.identifier
        (html ++ " data-identifier=\"" ++ identifier ++ "\" data-listeners=\"" ++
           String.intercalate ", " (eventListeners.map Prod.fst) ++ "\"",
         RState.mk (st.identifier + 1)
           (st.listeners ++ [listenerScript identifier eventListeners]))
      else (html, st)
    match render children st with
    | none => none
    | some (childrenHtml, st) =>
      some (html ++ ">" ++ childrenHtml ++ "</" ++ jsCoerce ty ++ ">", st)

/-- The `for (const el of element)` loop of the array branch of
`renderToString`, accumulating the html text. -/
def renderListAux (render : JSVal → RState → Option (String × RState)) :
    List JSVal → String → RState → Option (String × RState)
  | [], html, st => some (html, st)
  | el :: rest, html, st =>
    match render el st with
    | none => none
    | some (s, st') => renderListAux render rest (html ++ s) st'

/-- Behaviour of function values when invoked: `env code arg1 arg2` is the
value returned by the callable with index `code` applied to two argument
positions (JavaScript fills a missing argument with `undefined`). -/
abbrev ComponentEnv := Nat → JSVal → JSVal → JSVal

/-- The default `this.createComponent = async (component, props) => component(props)`:
the callable is invoked with the props as its only argument, so its second
parameter receives `undefined`. -/
def createComponent (env : ComponentEnv) (component : Nat) (props : JSVal) : JSVal :=
  env component props JSVal.undef

/-- The `props = {}` destructuring default. -/
def defaultProps : JSVal → JSVal
  | .undef => JSVal.obj []
  | p => p

/-- The tail of `renderToString` after the scalar and array cases: the
`{ type, props = {} }` destructuring, the symbol branch, the functional
component branch, and the fall-through to `parseTag`. A `null` props object
makes every branch throw (`props.children` / `Object.entries(props)`),
modelled as `none`. -/
def renderElement (env : ComponentEnv) (render : JSVal → RState → Option (String × RState))
    (element : JSVal) (st : RState) : Option (String × RState) :=
  let ty := getField element "type"
  match defaultProps (getField element "props") with
  | .null => none
  | props =>
    match ty with
    | .symbol _ =>
      if truthy (getField props "children") then
        render (getField props "children") st
      else
        some ("", st)
    | .fn code _ =>
      if truthy (getField props "children") then
        match render (getField props "children") st with
        | none => none
        | some (childrenHtml, st') =>
          render (createComponent env code (setChildren props (.str childrenHtml))) st'
      else
        render (createComponent env code props) st
    | ty => parseTag render ty (objEntries props) st

/-- `Document.renderToString`. Fuel bounds the recursion depth (component
expansion is unbounded in the source); every recursive call spends one unit. -/
def renderToString (env : ComponentEnv) : Nat → JSVal → RState → Option (String × RState)
  | 0, _, _ => none
  | _ + 1, .undef, st => some ("undefined", st)
  | _ + 1, .null, st => some ("null", st)
  | _ + 1, .str s, st => some (s, st)
  | _ + 1, .num n, st => some (Int.repr n, st)
  | fuel + 1, .arr elements, st => renderListAux (renderToString env fuel) elements "" st
  | fuel + 1, element, st => renderElement env (renderToString env fuel) element st

/-- The `Document` instance fields (minus the pluggable `createComponent`
callback, which no claim exercises beyond its default, kept in
`ComponentEnv`). -/
structure Document where
  identifier : Nat
  lang : String
  title : String
  metas : List String
  links : List String
  styles : List String
  headerScripts : List String
  bodyScripts : List String
  noScript : String
  listeners : List String
deriving DecidableEq

/-- A freshly constructed `Document` (the field initialisers of the class). -/
def freshDocument : Document where
  identifier := 0
  lang := "en"
  title := "Rendered as dynamic markup"
  metas := []
  links := []
  styles := []
  headerScripts := []
  bodyScripts := []
  noScript := "Your browser does not support JavaScript!"
  listeners := []

/-- The template literal returned by `renderToDynamicMarkup`, byte for byte
(the listener join reads the post-render registry). -/
def documentShell (d : Document) (content : String) : String :=
  "\n            <!DOCTYPE html>\n            <html lang=\x27" ++ d.lang ++
  "\x27>\n                <head>\n                    <title>" ++ d.title ++
  "</title>\n                    " ++ String.intercalate "\n" d.metas ++
  "\n                    " ++ String.intercalate "\n" d.links ++
  "\n                    " ++ String.intercalate "\n" d.styles ++
  "\n                    " ++ String.intercalate "\n" d.headerScripts ++
  "\n                </head>\n                <body>\n                    " ++ content ++
  "\n                    " ++ String.intercalate "\n" d.bodyScripts ++
  "\n                    <script>\ndocument.addEventListener(\x27DOMContentLoaded\x27, function() \x7b\n" ++
  String.intercalate "\n\n" d.listeners ++
  "\n\x7d);\n                    </script>\n                    <noscript>" ++ d.noScript ++
  "</noscript>\n                </body>\n            </html>\n        "

/-- `Document.renderToDynamicMarkup`: renders the element with the instance
state, then wraps the content in the document template; the updated instance
is returned alongside (the source mutates `this`, never resetting the
counter or the registry). -/
def renderToDynamicMarkup (env : ComponentEnv) (fuel : Nat) (d : Document)
    (reactElement : JSVal) : Option (String × Document) :=
  match renderToString env fuel reactElement (RState.mk d.identifier d.listeners) with
  | none => none
  | some (content, st) =>
    let d := { d with identifier := st.identifier, listeners := st.listeners }
    some (documentShell d content, d)

/-- Modelled from the spec: "the default strategy for `Function` calls the
callable with `(props, children)`" - the two-argument invocation the spec
describes, to be compared with the source's `createComponent`. -/
def createComponentSpec (env : ComponentEnv) (component : Nat)
    (props childrenArg : JSVal) : JSVal :=
  env component props childrenArg

/-!
Groundwork on decimal representations: `Nat.repr` is injective and never
contains an underscore, so minted identifiers `tag ++ "_" ++ Nat.repr c`
with distinct counters are distinct strings.
-/

def decDigitVal (c : Char) : Nat := c.toNat - '0'.toNat

def decodeDigits (l : List Char) : Nat :=
  l.foldl (fun a c => 10 * a + decDigitVal c) 0

theorem decDigitVal_digitChar {m : Nat} (h : m < 10) :
    decDigitVal (Nat.digitChar m) = m := by
  interval_cases m <;> rfl

theorem foldl_toDigitsCore :
    ∀ fuel n acc, n < fuel →
      (Nat.toDigitsCore 10 fuel n acc).foldl (fun a c => 10 * a + decDigitVal c) 0 =
        acc.foldl (fun a c => 10 * a + decDigitVal c) n := by
  intro fuel
  induction fuel with
  | zero => intro n acc h; omega
  | succ F ih =>
    intro n acc h
    rw [Nat.toDigitsCore]
    by_cases hn : n / 10 = 0
    · rw [if_pos hn]
      simp only [List.foldl_cons]
      rw [decDigitVal_digitChar (show n % 10 < 10 by omega)]
      have h10 : 10 * 0 + n % 10 = n := by omega
      rw [h10]
    · rw [if_neg hn]
      rw [ih (n / 10) _ (by omega)]
      simp only [List.foldl_cons]
      rw [decDigitVal_digitChar (show n % 10 < 10 by omega)]
      congr 1
      omega

theorem decodeDigits_toDigits (n : Nat) : decodeDigits (Nat.toDigits 10 n) = n := by
  unfold Nat.toDigits decodeDigits
  exact foldl_toDigitsCore (n + 1) n [] (Nat.lt_succ_self n)

theorem natRepr_injective {m n : Nat} (h : Nat.repr m = Nat.repr n) : m = n := by
  have hd : Nat.toDigits 10 m = Nat.toDigits 10 n := by
    have := congrArg String.data h
    simpa [Nat.repr, List.asString] using this
  have := congrArg decodeDigits hd
  simpa [decodeDigits_toDigits] using this

theorem toDigitsCore_mem :
    ∀ fuel n acc c, c ∈ Nat.toDigitsCore 10 fuel n acc →
      c ∈ acc ∨ ∃ m, m < 10 ∧ c = Nat.digitChar m := by
  intro fuel
  induction fuel with
  | zero => intro n acc c hc; rw [Nat.toDigitsCore] at hc; exact Or.inl hc
  | succ F ih =>
    intro n acc c hc
    rw [Nat.toDigitsCore] at hc
    by_cases hn : n / 10 = 0
    · rw [if_pos hn] at hc
      rcases List.mem_cons.mp hc with hc | hc
      · exact Or.inr ⟨n % 10, by omega, hc⟩
      · exact Or.inl hc
    · rw [if_neg hn] at hc
      rcases ih (n / 10) _ c hc with hc | hc
      · rcases List.mem_cons.mp hc with hc | hc
        · exact Or.inr ⟨n % 10, by omega, hc⟩
        · exact Or.inl hc
      · exact Or.inr hc

theorem repr_no_underscore (n : Nat) : '_' ∉ (Nat.repr n).data := by
  intro h
  have hm : '_' ∈ Nat.toDigits 10 n := by
    simpa [Nat.repr, List.asString] using h
  rcases toDigitsCore_mem (n + 1) n [] '_' hm with hc | ⟨m, hm10, he⟩
  · simp at hc
  · interval_cases m <;> exact absurd he (by decide)

theorem underscore_split_inj :
    ∀ (l1 r1 l2 r2 : List Char),
      l1 ++ '_' :: r1 = l2 ++ '_' :: r2 → '_' ∉ r1 → '_' ∉ r2 → r1 = r2 := by
  intro l1
  induction l1 with
  | nil =>
    intro r1 l2 r2 heq h1 h2
    cases l2 with
    | nil => simpa using heq
    | cons b l2' =>
      simp only [List.nil_append, List.cons_append, List.cons.injEq] at heq
      exact absurd (heq.2 ▸ List.mem_append_right l2' (List.mem_cons_self _ _)) h1
  | cons a l1' ih =>
    intro r1 l2 r2 heq h1 h2
    cases l2 with
    | nil =>
      simp only [List.nil_append, List.cons_append, List.cons.injEq] at heq
      exact absurd (heq.2 ▸ List.mem_append_right l1' (List.mem_cons_self _ _)) h2
    | cons b l2' =>
      simp only [List.cons_append, List.cons.injEq] at heq
      exact ih r1 l2' r2 heq.2 h1 h2

theorem idText_counter_inj {t1 t2 : String} {c1 c2 : Nat}
    (h : t1 ++ "_" ++ Nat.repr c1 = t2 ++ "_" ++ Nat.repr c2) : c1 = c2 := by
  have hd := congrArg String.data h
  simp only [String.data_append, List.append_assoc] at hd
  rw [List.singleton_append, List.singleton_append] at hd
  have := underscore_split_inj t1.data (Nat.repr c1).data t2.data (Nat.repr c2).data hd
    (repr_no_underscore c1) (repr_no_underscore c2)
  exact natRepr_injective (String.ext this)

/-!
The minting structure of a render pass: every run of the serializer extends
the listener registry by a block of scripts whose identifiers carry
consecutive counter values, which makes all identifiers of a pass pairwise
distinct.
-/

/-- The scripts pushed for a sequence of mints `(tag text, event listeners)`
starting at counter value `base`. -/
def scriptsOf : Nat → List (String × List (String × String)) → List String
  | _, [] => []
  | base, m :: rest => listenerScript (m.1 ++ "_" ++ Nat.repr base) m.2 :: scriptsOf (base + 1) rest

/-- The identifiers minted for such a sequence. -/
def idsOf : Nat → List (String × List (String × String)) → List String
  | _, [] => []
  | base, m :: rest => (m.1 ++ "_" ++ Nat.repr base) :: idsOf (base + 1) rest

/-- How one (partial) render pass takes the instance state from `st` to
`st'`: the counter advances by one per mint, the registry grows by the
corresponding scripts in mint order, and every mint carries at least one
event binding. -/
def MintSpec (st st' : RState) (ms : List (String × List (String × String))) : Prop :=
  st'.identifier = st.identifier + ms.length ∧
  st'.listeners = st.listeners ++ scriptsOf st.identifier ms ∧
  ∀ m ∈ ms, m.2 ≠ []

theorem MintSpec.refl (st : RState) : MintSpec st st [] := by
  refine ⟨by simp [scriptsOf], by simp [scriptsOf], by simp⟩

theorem scriptsOf_append (ms1 : List (String × List (String × String))) :
    ∀ base ms2, scriptsOf base (ms1 ++ ms2) =
      scriptsOf base ms1 ++ scriptsOf (base + ms1.length) ms2 := by
  induction ms1 with
  | nil => intro base ms2; simp [scriptsOf]
  | cons m rest ih =>
    intro base ms2
    have harith : base + 1 + rest.length = base + (rest.length + 1) := by omega
    simp only [List.cons_append, scriptsOf, List.append_eq, ih (base + 1) ms2,
      List.length_cons, harith]

theorem MintSpec.trans {s1 s2 s3 : RState} {ms1 ms2 : List (String × List (String × String))}
    (h1 : MintSpec s1 s2 ms1) (h2 : MintSpec s2 s3 ms2) : MintSpec s1 s3 (ms1 ++ ms2) := by
  obtain ⟨ha1, hb1, hc1⟩ := h1
  obtain ⟨ha2, hb2, hc2⟩ := h2
  refine ⟨by simp [ha2, ha1]; omega, ?_, ?_⟩
  · rw [hb2, hb1, scriptsOf_append, ha1, List.append_assoc]
  · intro m hm
    rcases List.mem_append.mp hm with hm | hm
    · exact hc1 m hm
    · exact hc2 m hm

theorem MintSpec.single (st : RState) (tag : String) (evs : List (String × String))
    (h : evs ≠ []) :
    MintSpec st
      (RState.mk (st.identifier + 1)
        (st.listeners ++ [listenerScript (tag ++ "_" ++ Nat.repr st.identifier) evs]))
      [(tag, evs)] := by
  refine ⟨by simp [scriptsOf], by simp [scriptsOf], by simpa using h⟩

/-- A renderer whose successful runs always have the minting structure. -/
def RendersWithMint (f : JSVal → RState → Option (String × RState)) : Prop :=
  ∀ e st out, f e st = some out → ∃ ms, MintSpec st out.2 ms

theorem renderListAux_mint {f : JSVal → RState → Option (String × RState)}
    (hf : RendersWithMint f) :
    ∀ els html st out, renderListAux f els html st = some out →
      ∃ ms, MintSpec st out.2 ms := by
  intro els
  induction els with
  | nil =>
    intro html st out h
    simp only [renderListAux] at h
    obtain rfl : (html, st) = out := by simpa using h
    exact ⟨[], MintSpec.refl st⟩
  | cons el rest ih =>
    intro html st out h
    simp only [renderListAux] at h
    cases hel : f el st with
    | none => rw [hel] at h; simp at h
    | some p =>
      rw [hel] at h
      obtain ⟨ms1, hms1⟩ := hf el st p hel
      obtain ⟨ms2, hms2⟩ := ih (html ++ p.1) p.2 out h
      exact ⟨ms1 ++ ms2, hms1.trans hms2⟩

theorem parseTag_mint {f : JSVal → RState → Option (String × RState)}
    (hf : RendersWithMint f) :
    ∀ ty attrs st out, parseTag f ty attrs st = some out →
      ∃ ms, MintSpec st out.2 ms := by
  intro ty attrs st out h
  simp only [parseTag] at h
  cases hfa : foldAttrs ("<" ++ jsCoerce ty, [], JSVal.str "") attrs with
  | none => rw [hfa] at h; simp at h
  | some acc =>
    rw [hfa] at h
    obtain ⟨html, evs, children⟩ := acc
    simp only at h
    by_cases hevs : evs.length > 0
    · rw [if_pos hevs] at h
      set st2 : RState := RState.mk (st.identifier + 1)
        (st.listeners ++ [listenerScript (mkIdentifier ty st.identifier) evs]) with hst2
      have h1 : MintSpec st st2 [(jsCoerce ty, evs)] := by
        have := MintSpec.single st (jsCoerce ty) evs (by
          intro hnil; rw [hnil] at hevs; simp at hevs)
        simpa [hst2, mkIdentifier] using this
      cases hre : f children st2 with
      | none => rw [hre] at h; simp at h
      | some p =>
        rw [hre] at h
        obtain ⟨ms2, hms2⟩ := hf children st2 p hre
        have : out.2 = p.2 := by
          obtain ⟨s', st'⟩ := p
          simp only at h
          exact (congrArg Prod.snd (Option.some.inj h)).symm ▸ rfl
        obtain ⟨s', st'⟩ := p
        cases h
        exact ⟨[(jsCoerce ty, evs)] ++ ms2, h1.trans hms2⟩
    · rw [if_neg hevs] at h
      cases hre : f children st with
      | none => rw [hre] at h; simp at h
      | some p =>
        rw [hre] at h
        obtain ⟨ms2, hms2⟩ := hf children st p hre
        obtain ⟨s', st'⟩ := p
        cases h
        exact ⟨ms2, hms2⟩

theorem renderElement_mint {env : ComponentEnv} {f : JSVal → RState → Option (String × RState)}
    (hf : RendersWithMint f) :
    ∀ e st out, renderElement env f e st = some out → ∃ ms, MintSpec st out.2 ms := by
  intro e st out h
  simp only [renderElement] at h
  split at h
  · simp at h
  · split at h
    · -- symbol-typed element
      split at h
      · exact hf _ _ _ h
      · cases h
        exact ⟨[], MintSpec.refl st⟩
    · -- function component
      split at h
      · split at h
        · simp at h
        · rename_i p hre
          obtain ⟨ms1, hms1⟩ := hf _ _ _ hre
          obtain ⟨ms2, hms2⟩ := hf _ _ _ h
          exact ⟨ms1 ++ ms2, hms1.trans hms2⟩
      · exact hf _ _ _ h
    · -- fall-through to parseTag
      exact parseTag_mint hf _ _ _ _ h

theorem renderToString_mint (env : ComponentEnv) :
    ∀ fuel, RendersWithMint (renderToString env fuel) := by
  intro fuel
  induction fuel with
  | zero => intro e st out h; simp [renderToString] at h
  | succ F ih =>
    intro e st out h
    cases e with
    | undef => simp only [renderToString] at h; cases h; exact ⟨[], MintSpec.refl st⟩
    | null => simp only [renderToString] at h; cases h; exact ⟨[], MintSpec.refl st⟩
    | str s => simp only [renderToString] at h; cases h; exact ⟨[], MintSpec.refl st⟩
    | num n => simp only [renderToString] at h; cases h; exact ⟨[], MintSpec.refl st⟩
    | arr els =>
      simp only [renderToString] at h
      exact renderListAux_mint ih els "" st out h
    | bool b => simp only [renderToString] at h; exact renderElement_mint ih _ _ _ h
    | symbol d => simp only [renderToString] at h; exact renderElement_mint ih _ _ _ h
    | fn c s => simp only [renderToString] at h; exact renderElement_mint ih _ _ _ h
    | obj fs => simp only [renderToString] at h; exact renderElement_mint ih _ _ _ h

theorem mem_idsOf :
    ∀ (ms : List (String × List (String × String))) base x,
      x ∈ idsOf base ms → ∃ t k, k < ms.length ∧ x = t ++ "_" ++ Nat.repr (base + k) := by
  intro ms
  induction ms with
  | nil => intro base x hx; simp [idsOf] at hx
  | cons m rest ih =>
    intro base x hx
    rcases List.mem_cons.mp hx with hx | hx
    · exact ⟨m.1, 0, by simp, by simpa using hx⟩
    · obtain ⟨t, k, hk, he⟩ := ih (base + 1) x hx
      have harith : base + 1 + k = base + (k + 1) := by omega
      exact ⟨t, k + 1, by simp; omega, by rw [he, harith]⟩

theorem idsOf_nodup : ∀ (ms : List (String × List (String × String))) base,
    (idsOf base ms).Nodup := by
  intro ms
  induction ms with
  | nil => intro base; simp [idsOf]
  | cons m rest ih =>
    intro base
    simp only [idsOf, List.nodup_cons]
    refine ⟨?_, ih (base + 1)⟩
    intro hmem
    obtain ⟨t, k, hk, he⟩ := mem_idsOf rest (base + 1) _ hmem
    have := idText_counter_inj he
    omega

/-!
The attribute and event extractor: characterisation of which entries become
event bindings (following the spec's wording, to be compared with the
source's loop) and proof that event entries contribute nothing to the
emitted attribute text.
-/

/-- The spec's event-attribute test: the key starts case-insensitively with
"on" and the value is callable. (A `children` key can never satisfy this.) -/
def isEventAttr (kv : String × JSVal) : Bool :=
  jsStartsWith (jsToLowerCase kv.1) "on" && jsTypeof kv.2 == "function"

/-- Modelled from the spec: the event binding an attribute entry is expected
to produce - event type is the key minus its first two characters,
lower-cased, paired with the handler's source text. -/
def eventBindingSpecOf (kv : String × JSVal) : Option (String × String) :=
  if isEventAttr kv then some (jsToLowerCase (kv.1.drop 2), fnSource kv.2) else none

theorem attrEntry_event {k : String} {v : JSVal} (h : isEventAttr (k, v) = true)
    (html : String) (evs : List (String × String)) (ch : JSVal) :
    attrEntry (html, evs, ch) (k, v) =
      some (html, evs ++ [(jsToLowerCase (k.drop 2), fnSource v)], ch) := by
  have hk : ¬((k == "children") = true) := by
    intro hkc
    have : k = "children" := by simpa using hkc
    subst this
    simp only [isEventAttr] at h
    rw [show (jsStartsWith (jsToLowerCase "children") "on") = false from by decide] at h
    simp at h
  simp only [attrEntry]
  rw [if_neg hk, if_pos (by simpa [isEventAttr] using h)]

theorem attrEntry_nonevent {k : String} {v : JSVal} (h : isEventAttr (k, v) = false)
    {html : String} {evs : List (String × String)} {ch : JSVal}
    {acc' : String × List (String × String) × JSVal}
    (he : attrEntry (html, evs, ch) (k, v) = some acc')
    (evs2 : List (String × String)) :
    acc'.2.1 = evs ∧ attrEntry (html, evs2, ch) (k, v) = some (acc'.1, evs2, acc'.2.2) := by
  simp only [attrEntry] at he ⊢
  split_ifs at he ⊢ with h1 h2 h3
  · cases he; exact ⟨rfl, rfl⟩
  · exact absurd h2 (by simpa [isEventAttr] using h)
  · cases hst : styleText v with
    | none => rw [hst] at he; simp at he
    | some t =>
      rw [hst] at he
      cases he
      exact ⟨rfl, rfl⟩
  all_goals (cases he; exact ⟨rfl, rfl⟩)

theorem foldAttrs_filter_events :
    ∀ (attrs : List (String × JSVal)) html evs ch out,
      foldAttrs (html, evs, ch) attrs = some out →
      out.2.1 = evs ++ attrs.filterMap eventBindingSpecOf ∧
      ∀ evs2, foldAttrs (html, evs2, ch) (attrs.filter fun kv => !(isEventAttr kv)) =
        some (out.1, evs2, out.2.2) := by
  intro attrs
  induction attrs with
  | nil =>
    intro html evs ch out h
    simp only [foldAttrs] at h
    cases h
    exact ⟨by simp, fun evs2 => by simp [foldAttrs]⟩
  | cons kv rest ih =>
    intro html evs ch out h
    obtain ⟨kk, vv⟩ := kv
    simp only [foldAttrs] at h
    cases hae : attrEntry (html, evs, ch) (kk, vv) with
    | none => rw [hae] at h; simp at h
    | some acc' =>
      rw [hae] at h
      by_cases hev : isEventAttr (kk, vv) = true
      · rw [attrEntry_event hev html evs ch] at hae
        cases hae
        obtain ⟨ih1, ih2⟩ := ih html (evs ++ [(jsToLowerCase (kk.drop 2), fnSource vv)]) ch out h
        constructor
        · rw [ih1]
          simp [List.filterMap_cons, eventBindingSpecOf, hev]
        · intro evs2
          have hfilter : ((kk, vv) :: rest).filter (fun kv => !(isEventAttr kv)) =
              rest.filter (fun kv => !(isEventAttr kv)) := by
            simp [List.filter_cons, hev]
          rw [hfilter]
          exact ih2 evs2
      · have hev' : isEventAttr (kk, vv) = false := by simpa using hev
        have h1 : acc'.2.1 = evs := (attrEntry_nonevent hev' hae []).1
        have hstep : ∀ evs2, attrEntry (html, evs2, ch) (kk, vv) =
            some (acc'.1, evs2, acc'.2.2) :=
          fun evs2 => (attrEntry_nonevent hev' hae evs2).2
        obtain ⟨a1, a2, a3⟩ := acc'
        simp only at h1 hstep
        subst h1
        obtain ⟨ih1, ih2⟩ := ih a1 a2 a3 out h
        constructor
        · rw [ih1]
          congr 1
          simp [List.filterMap_cons, eventBindingSpecOf, hev']
        · intro evs2
          have hfilter : ((kk, vv) :: rest).filter (fun kv => !(isEventAttr kv)) =
              (kk, vv) :: rest.filter (fun kv => !(isEventAttr kv)) := by
            simp [List.filter_cons, hev']
          rw [hfilter]
          simp only [foldAttrs]
          rw [hstep evs2]
          exact ih2 evs2

/-!
Concrete fixtures for the claim theorems.
-/

set_option maxRecDepth 10000

/-- A component environment in which every callable returns `undefined`
(sufficient whenever no component is invoked). -/
def envNone : ComponentEnv := fun _ _ _ => JSVal.undef

/-- A component environment in which callable `0` returns its second
argument (observing what the serializer passes in that position). -/
def envSecondArg : ComponentEnv := fun _ _ second => second

/-- A component environment with a two-deep component chain: callable `0`
returns an element backed by callable `1`, which returns a text leaf. -/
def envNest : ComponentEnv := fun code _ _ =>
  if code = 0 then JSVal.obj [("type", JSVal.fn 1 "Inner"), ("props", JSVal.obj [])]
  else JSVal.str "leaf"

/-- `<button onClick={handler}/>` with the given handler source text. -/
def buttonOnClick (src : String) : JSVal :=
  .obj [("type", .str "button"), ("props", .obj [("onClick", .fn 0 src)])]

/-- The registry entry the source produces for one element identified as
`identifier` with a single click handler of source `src`. -/
def clickScript (identifier src : String) : String :=
  "const " ++ identifier ++ " = document.querySelector(\x27[data-identifier=\"" ++
    identifier ++ "\"]\x27);\n" ++
  identifier ++ ".addEventListener(\"click\", " ++ src ++ ");"

/-- The expected `Document` state after one render of a clicked button on a
fresh instance. -/
def oneRenderDoc : Document :=
  { freshDocument with identifier := 1, listeners := [clickScript "button_0" "f0"] }

/-- The expected `Document` state after a second render (of another clicked
button) on the same instance. -/
def twoRenderDoc : Document :=
  { freshDocument with
    identifier := 2
    listeners := [clickScript "button_0" "f0", clickScript "button_1" "f1"] }

/-- Substring test (observation helper, defined over character lists so it
evaluates by kernel reduction). -/
def strContainsAux (pat : List Char) : List Char → Bool
  | [] => pat.isEmpty
  | l@(_ :: rest) => pat.isPrefixOf l || strContainsAux pat rest

/-- Does `s` contain `pat` as a substring? -/
def strContains (s pat : String) : Bool := strContainsAux pat.data s.data

/-!
The claims.
-/

/-- C1: during one render pass every successful run of the serializer
advances the identifier counter by exactly one per element that produced at
least one event binding (`m.2 ≠ []`), appends exactly the corresponding
scripts - whose identifiers are `<tag text>_<counter>` with consecutive
counters in discovery order - to the registry, and those identifiers are
pairwise distinct; concretely, three sibling `<button>` elements with click
handlers get `button_0`, `button_1`, `button_2` in left-to-right order with
their three listener bindings recorded in the same order. -/
theorem c1_identifier_minting :
    (∀ env fuel e st out, renderToString env fuel e st = some out →
      ∃ ms, (∀ m ∈ ms, m.2 ≠ []) ∧
        out.2.identifier = st.identifier + ms.length ∧
        out.2.listeners = st.listeners ++ scriptsOf st.identifier ms ∧
        (idsOf st.identifier ms).Nodup) ∧
    renderToString envNone 10
        (.arr [buttonOnClick "f0", buttonOnClick "f1", buttonOnClick "f2"])
        (RState.mk 0 []) =
      some ("<button data-identifier=\"button_0\" data-listeners=\"click\"></button>" ++
            "<button data-identifier=\"button_1\" data-listeners=\"click\"></button>" ++
            "<button data-identifier=\"button_2\" data-listeners=\"click\"></button>",
        RState.mk 3
          [clickScript "button_0" "f0", clickScript "button_1" "f1",
           clickScript "button_2" "f2"]) := by
  constructor
  · intro env fuel e st out h
    obtain ⟨ms, h1, h2, h3⟩ := renderToString_mint env fuel e st out h
    exact ⟨ms, h3, h1, h2, idsOf_nodup ms st.identifier⟩
  · rfl

theorem c1_identifier_minting_witness :
    ∃ ms, (∀ m ∈ ms, m.2 ≠ []) ∧
      (RState.mk 1 [clickScript "button_0" "f0"]).identifier =
        (RState.mk 0 []).identifier + ms.length ∧
      (RState.mk 1 [clickScript "button_0" "f0"]).listeners =
        (RState.mk 0 []).listeners ++ scriptsOf (RState.mk 0 []).identifier ms ∧
      (idsOf (RState.mk 0 []).identifier ms).Nodup :=
  c1_identifier_minting.1 envNone 10 (buttonOnClick "f0") (RState.mk 0 [])
    ("<button data-identifier=\"button_0\" data-listeners=\"click\"></button>",
      RState.mk 1 [clickScript "button_0" "f0"]) (by rfl)

/-- C2: rendering `{type:"button", props:{onClick: fn, children:"Click me"}}`
from a fresh state yields exactly
`<button data-identifier="button_0" data-listeners="click">Click me</button>`
and appends exactly one registry entry, carrying identifier `button_0`,
event type `click`, and the handler's source text. -/
theorem c2_button_markup :
    renderToString envNone 10
        (.obj [("type", .str "button"),
               ("props", .obj [("onClick", .fn 0 "() => serverAction()"),
                               ("children", .str "Click me")])])
        (RState.mk 0 []) =
      some ("<button data-identifier=\"button_0\" data-listeners=\"click\">Click me</button>",
        RState.mk 1 [clickScript "button_0" "() => serverAction()"]) ∧
    clickScript "button_0" "() => serverAction()" =
      "const button_0 = document.querySelector(\x27[data-identifier=\"button_0\"]\x27);\n" ++
      "button_0.addEventListener(\"click\", () => serverAction());" := ⟨by rfl, by rfl⟩

/-- C3: an attribute entry becomes an event binding exactly when its key
starts case-insensitively with "on" and its value is callable; the binding's
event type is the key minus its first two characters, lower-cased; and
removing exactly those entries changes neither the emitted tag text nor the
extracted children, i.e. event attributes are never emitted as literal
`key="value"` text. -/
theorem c3_event_extraction (ty : JSVal) (attrs : List (String × JSVal))
    (html : String) (evs : List (String × String)) (children : JSVal)
    (h : foldAttrs ("<" ++ jsCoerce ty, [], JSVal.str "") attrs = some (html, evs, children)) :
    evs = attrs.filterMap eventBindingSpecOf ∧
    foldAttrs ("<" ++ jsCoerce ty, [], JSVal.str "")
        (attrs.filter fun kv => !(isEventAttr kv)) =
      some (html, [], children) := by
  obtain ⟨h1, h2⟩ := foldAttrs_filter_events attrs _ [] _ (html, evs, children) h
  exact ⟨by simpa using h1, by simpa using h2 []⟩

theorem c3_event_extraction_witness :
    ([("click", "() => act()")] : List (String × String)) =
      [(("onClick" : String), JSVal.fn 0 "() => act()"),
       (("id" : String), JSVal.str "a")].filterMap eventBindingSpecOf ∧
    foldAttrs ("<" ++ jsCoerce (.str "button"), [], JSVal.str "")
        ([(("onClick" : String), JSVal.fn 0 "() => act()"),
          (("id" : String), JSVal.str "a")].filter fun kv => !(isEventAttr kv)) =
      some ("<button id=\"a\"", [], JSVal.str "") :=
  c3_event_extraction (.str "button")
    [("onClick", JSVal.fn 0 "() => act()"), ("id", JSVal.str "a")]
    "<button id=\"a\"" [("click", "() => act()")] (JSVal.str "") (by rfl)

/-- C4 counterexample: the claim says a `null`-valued attribute is omitted
entirely, but the source emits `hidden="null"` (the `typeof value ===
"boolean"` test does not match `null`, which falls to the generic
`key="value"` branch). -/
theorem c4_null_attr_counterexample :
    renderToString envNone 10
        (.obj [("type", .str "div"), ("props", .obj [("hidden", JSVal.null)])])
        (RState.mk 0 []) =
      some ("<div hidden=\"null\"></div>", RState.mk 0 []) ∧
    renderToString envNone 10
        (.obj [("type", .str "div"), ("props", .obj [("x", JSVal.undef)])])
        (RState.mk 0 []) =
      some ("<div x=\"undefined\"></div>", RState.mk 0 []) ∧
    ("<div hidden=\"null\"></div>" : String) ≠ "<div></div>" :=
  ⟨by rfl, by rfl, by decide⟩

/-- C4 (amended): in attribute serialization boolean `true` emits the bare
attribute name and boolean `false` omits the attribute entirely, as claimed;
but `null` and `undefined` values are not omitted - they are emitted
literally as `key="null"` and `key="undefined"`. -/
theorem c4_boolean_null_undefined_attrs
    (html : String) (evs : List (String × String)) (ch : JSVal) (k : String)
    (hk : k ≠ "children") :
    attrEntry (html, evs, ch) (k, .bool true) = some (html ++ " " ++ k, evs, ch) ∧
    attrEntry (html, evs, ch) (k, .bool false) = some (html, evs, ch) ∧
    (k ≠ "className" → jsToLowerCase k ≠ "style" →
      attrEntry (html, evs, ch) (k, JSVal.null) =
        some (html ++ " " ++ k ++ "=\"null\"", evs, ch)) ∧
    (k ≠ "className" →
      attrEntry (html, evs, ch) (k, JSVal.undef) =
        some (html ++ " " ++ k ++ "=\"undefined\"", evs, ch)) := by
  refine ⟨?_, ?_, fun hc hs => ?_, fun hc => ?_⟩
  · simp [attrEntry, hk, jsTypeof, isTrueVal]
  · simp [attrEntry, hk, jsTypeof, isTrueVal]
  · simp [attrEntry, hk, hc, hs, jsTypeof, jsCoerce, jsCoerceScalar, String.append_assoc]
  · simp [attrEntry, hk, hc, jsTypeof, jsCoerce, jsCoerceScalar, String.append_assoc]

theorem c4_boolean_null_undefined_attrs_witness :
    attrEntry ("", [], JSVal.str "") ("hidden", .bool true) =
      some (" hidden", [], JSVal.str "") ∧
    attrEntry ("", [], JSVal.str "") ("hidden", .bool false) =
      some ("", [], JSVal.str "") ∧
    attrEntry ("", [], JSVal.str "") ("hidden", JSVal.null) =
      some (" hidden=\"null\"", [], JSVal.str "") ∧
    attrEntry ("", [], JSVal.str "") ("hidden", JSVal.undef) =
      some (" hidden=\"undefined\"", [], JSVal.str "") := by
  obtain ⟨a, b, c, d⟩ :=
    c4_boolean_null_undefined_attrs "" [] (JSVal.str "") "hidden" (by decide)
  exact ⟨by simpa using a, b, by simpa using c (by decide) (by decide),
    by simpa using d (by decide)⟩

/-- C5 counterexample: the claim says a boolean node renders as the literal
word `true`/`false`, but a boolean node falls past the string/number test
into tag parsing (its destructured `type` is `undefined`) and renders as
`<undefined></undefined>`. -/
theorem c5_bool_counterexample :
    renderToString envNone 10 (JSVal.bool true) (RState.mk 0 []) =
      some ("<undefined></undefined>", RState.mk 0 []) ∧
    renderToString envNone 10 (JSVal.bool false) (RState.mk 0 []) =
      some ("<undefined></undefined>", RState.mk 0 []) ∧
    ("<undefined></undefined>" : String) ≠ "true" := ⟨by rfl, by rfl, by decide⟩

/-- C5 (amended): string, number, `null` and `undefined` scalar leaves
serialize to their literal textual form as claimed (`null`/`undefined` as
the literal words); boolean nodes, however, are not rendered as scalar
leaves - they fall through to tag serialization and yield
`<undefined></undefined>`. -/
theorem c5_scalar_leaves (env : ComponentEnv) (fuel : Nat) (st : RState) :
    (∀ s : String, renderToString env (fuel + 1) (.str s) st = some (s, st)) ∧
    (∀ n : Int, renderToString env (fuel + 1) (.num n) st = some (Int.repr n, st)) ∧
    renderToString env (fuel + 1) JSVal.null st = some ("null", st) ∧
    renderToString env (fuel + 1) JSVal.undef st = some ("undefined", st) ∧
    (∀ b : Bool, renderToString env (fuel + 3) (.bool b) st =
      some ("<undefined></undefined>", st)) := by
  refine ⟨fun s => rfl, fun n => rfl, rfl, rfl, fun b => ?_⟩
  cases b <;> rfl

/-- Unfolding of the serializer on a function-backed component element
(all property lookups on the two-field element object reduce). -/
theorem renderElement_fn (env : ComponentEnv)
    (render : JSVal → RState → Option (String × RState))
    (code : Nat) (src : String) (fields : List (String × JSVal)) (st : RState) :
    renderElement env render
        (.obj [("type", .fn code src), ("props", .obj fields)]) st =
      if truthy (getField (.obj fields) "children") then
        match render (getField (.obj fields) "children") st with
        | none => none
        | some (chHtml, st') =>
          render (createComponent env code (setChildren (.obj fields) (.str chHtml))) st'
      else render (createComponent env code (.obj fields)) st := rfl

/-- C6 counterexample: the claim says the callable is invoked with
`(props, children)` as its two arguments. With a callable that returns its
second argument, the spec's described invocation would resolve to the
children (`"X"`), but the source renders `"undefined"`: the callable's
second parameter receives `undefined`, because the default callback calls
`component(props)` with a single argument. -/
theorem c6_two_argument_counterexample :
    renderToString envSecondArg 10
        (.obj [("type", .fn 0 "Comp"), ("props", .obj [("children", .str "X")])])
        (RState.mk 0 []) = some ("undefined", RState.mk 0 []) ∧
    renderToString envSecondArg 10
        (createComponentSpec envSecondArg 0 (.obj [("children", .str "X")]) (.str "X"))
        (RState.mk 0 []) = some ("X", RState.mk 0 []) ∧
    ("undefined" : String) ≠ "X" := ⟨by rfl, by rfl, by decide⟩

/-- C6 (amended): with the default creation callback, resolving a
function-backed component invokes the callable with a single argument - the
props object, in which a truthy `children` value has first been replaced by
its rendered string - so the callable's second parameter receives
`undefined`; the node the callable returns is itself resolved recursively
until no component node remains (as the nested two-component chain shows). -/
theorem c6_component_invocation (env : ComponentEnv) (fuel code : Nat) (src : String)
    (fields : List (String × JSVal)) (st : RState) :
    (∀ p, createComponent env code p = env code p JSVal.undef) ∧
    (truthy (getField (.obj fields) "children") = false →
      renderToString env (fuel + 1)
          (.obj [("type", .fn code src), ("props", .obj fields)]) st =
        renderToString env fuel (createComponent env code (.obj fields)) st) ∧
    (∀ chHtml st', truthy (getField (.obj fields) "children") = true →
      renderToString env fuel (getField (.obj fields) "children") st = some (chHtml, st') →
      renderToString env (fuel + 1)
          (.obj [("type", .fn code src), ("props", .obj fields)]) st =
        renderToString env fuel
          (createComponent env code (setChildren (.obj fields) (.str chHtml))) st') ∧
    renderToString envNest 10
        (.obj [("type", .fn 0 "Outer"), ("props", .obj [])]) (RState.mk 0 []) =
      some ("leaf", RState.mk 0 []) := by
  refine ⟨fun p => rfl, fun h => ?_, fun chHtml st' h hre => ?_, by rfl⟩
  · have hstep : renderToString env (fuel + 1)
        (.obj [("type", .fn code src), ("props", .obj fields)]) st =
        renderElement env (renderToString env fuel)
          (.obj [("type", .fn code src), ("props", .obj fields)]) st := rfl
    rw [hstep, renderElement_fn, if_neg (by simp [h])]
  · have hstep : renderToString env (fuel + 1)
        (.obj [("type", .fn code src), ("props", .obj fields)]) st =
        renderElement env (renderToString env fuel)
          (.obj [("type", .fn code src), ("props", .obj fields)]) st := rfl
    rw [hstep, renderElement_fn, if_pos h, hre]

theorem c6_component_invocation_witness :
    createComponent envSecondArg 0 (JSVal.obj []) =
      envSecondArg 0 (JSVal.obj []) JSVal.undef ∧
    renderToString envSecondArg (9 + 1)
        (.obj [("type", .fn 0 "Comp"), ("props", .obj [("children", .str "X")])])
        (RState.mk 0 []) =
      renderToString envSecondArg 9
        (createComponent envSecondArg 0
          (setChildren (.obj [("children", .str "X")]) (.str "X"))) (RState.mk 0 []) := by
  obtain ⟨h1, _, h3, _⟩ :=
    c6_component_invocation envSecondArg 9 0 "Comp" [("children", .str "X")] (RState.mk 0 [])
  exact ⟨h1 (JSVal.obj []), h3 "X" (RState.mk 0 []) (by rfl) (by rfl)⟩

/-- C7 counterexample: the claim says an unrecognized node shape degrades to
the empty string, but a plain object with no `type` serializes as
`<undefined></undefined>`. -/
theorem c7_empty_string_counterexample :
    renderToString envNone 10 (JSVal.obj []) (RState.mk 0 []) =
      some ("<undefined></undefined>", RState.mk 0 []) ∧
    ("<undefined></undefined>" : String) ≠ "" := ⟨by rfl, by decide⟩

/-- C7 (amended): a node of unrecognized shape (here: any object carrying
neither a `type` nor a `props` entry) does not fail, but neither does it
degrade to the empty string - it falls through to tag serialization with an
`undefined` tag and renders as `<undefined></undefined>`. -/
theorem c7_unrecognized_shape (env : ComponentEnv) (fuel : Nat)
    (fields : List (String × JSVal)) (st : RState)
    (ht : fields.lookup "type" = none) (hp : fields.lookup "props" = none) :
    renderToString env (fuel + 3) (.obj fields) st =
      some ("<undefined></undefined>", st) := by
  have h1 : getField (.obj fields) "type" = JSVal.undef := by simp [getField, ht]
  have h2 : getField (.obj fields) "props" = JSVal.undef := by simp [getField, hp]
  have hstep : renderToString env (fuel + 3) (.obj fields) st =
      renderElement env (renderToString env (fuel + 2)) (.obj fields) st := rfl
  rw [hstep]
  simp only [renderElement, h1, h2]
  rfl

theorem c7_unrecognized_shape_witness :
    renderToString envNone (7 + 3) (.obj [("foo", JSVal.num 1)]) (RState.mk 0 []) =
      some ("<undefined></undefined>", RState.mk 0 []) :=
  c7_unrecognized_shape envNone 7 [("foo", JSVal.num 1)] (RState.mk 0 [])
    (by rfl) (by rfl)

/-- C8: rendering is deterministic across runs - two renders performed with
fresh `Document` instances on the same input tree (and the same component
behaviours) produce identical results: the output string and the final
instance state (hence the identifier assignment) coincide. The embedding
captures the source's strictly sequential `await` semantics, under which the
render is a pure function of the instance state and the input tree. -/
theorem c8_deterministic_render (env : ComponentEnv) (fuel : Nat) (tree : JSVal)
    (d1 d2 : Document) (h1 : d1 = freshDocument) (h2 : d2 = freshDocument) :
    renderToDynamicMarkup env fuel d1 tree = renderToDynamicMarkup env fuel d2 tree := by
  rw [h1, h2]

theorem c8_deterministic_render_witness :
    renderToDynamicMarkup envNone 10 freshDocument (buttonOnClick "f0") =
      renderToDynamicMarkup envNone 10 freshDocument (buttonOnClick "f0") :=
  c8_deterministic_render envNone 10 (buttonOnClick "f0") freshDocument freshDocument rfl rfl

/-- The style branch on a map whose values are all strings: entries joined
with ";" in insertion order, property names verbatim. -/
theorem styleText_strings (entries : List (String × String)) :
    styleText (.obj (entries.map fun p => (p.1, JSVal.str p.2))) =
      some (String.intercalate ";" (entries.map fun p => p.1 ++ ":" ++ p.2)) := by
  have h : styleEntryTexts (entries.map fun p => (p.1, JSVal.str p.2)) =
      some (entries.map fun p => p.1 ++ ":" ++ p.2) := by
    induction entries with
    | nil => rfl
    | cons e rest ih => simp [styleEntryTexts, ih, jsToStringMethod, jsCoerce, jsCoerceScalar]
  simp [styleText, objEntries, h]

/-- C9: a `style` attribute (key matched case-insensitively) whose value is
a style map serializes as the single attribute
`style="prop:value;prop:value"`, joining the entries with ";" in insertion
order and emitting property names verbatim; concretely,
`{style:{color:"red", fontWeight:"bold"}}` yields exactly
`style="color:red;fontWeight:bold"` (no camelCase-to-dash conversion). -/
theorem c9_style_serialization :
    (∀ (k html : String) (evs : List (String × String)) (ch : JSVal)
        (entries : List (String × String)), jsToLowerCase k = "style" →
      attrEntry (html, evs, ch) (k, .obj (entries.map fun p => (p.1, JSVal.str p.2))) =
        some (html ++ " style=\"" ++
          String.intercalate ";" (entries.map fun p => p.1 ++ ":" ++ p.2) ++ "\"",
          evs, ch)) ∧
    renderToString envNone 10
        (.obj [("type", .str "div"),
               ("props", .obj [("style", .obj [("color", .str "red"),
                                               ("fontWeight", .str "bold")])])])
        (RState.mk 0 []) =
      some ("<div style=\"color:red;fontWeight:bold\"></div>", RState.mk 0 []) := by
  constructor
  · intro k html evs ch entries hk
    have hkc : ¬((k == "children") = true) := by
      intro hc
      have hke : k = "children" := by simpa using hc
      rw [hke] at hk
      exact absurd hk (by decide)
    simp only [attrEntry]
    rw [if_neg hkc, if_neg (by simp [jsTypeof]), if_pos (by simp [hk, jsTypeof]),
      styleText_strings]
  · rfl

theorem c9_style_serialization_witness :
    attrEntry ("", [], JSVal.str "") ("STYLE",
      .obj ([(("color" : String), ("red" : String))].map fun p => (p.1, JSVal.str p.2))) =
      some (" style=\"color:red\"", [], JSVal.str "") :=
  c9_style_serialization.1 "STYLE" "" [] (JSVal.str "") [("color", "red")] (by decide)

set_option maxHeartbeats 1000000 in
/-- C10: the identifier counter and the listener registry live on the
`Document` instance and `renderToDynamicMarkup` never resets them: every
successful render can only advance the counter and append to the registry,
so a second render on the same instance continues the numbering where the
first stopped (`button_1` after `button_0`) and its output's deferred script
block contains the listener bindings of both renders. -/
theorem c10_state_accumulation :
    (∀ env fuel d tree out, renderToDynamicMarkup env fuel d tree = some out →
      d.identifier ≤ out.2.identifier ∧
      ∃ tail, out.2.listeners = d.listeners ++ tail) ∧
    ((renderToDynamicMarkup envNone 10 freshDocument (buttonOnClick "f0")).bind fun p =>
        renderToDynamicMarkup envNone 10 p.2 (buttonOnClick "f1")) =
      some (documentShell twoRenderDoc
          "<button data-identifier=\"button_1\" data-listeners=\"click\"></button>",
        twoRenderDoc) ∧
    twoRenderDoc.identifier = 2 ∧
    twoRenderDoc.listeners = [clickScript "button_0" "f0", clickScript "button_1" "f1"] ∧
    strContains (String.intercalate "\n\n" twoRenderDoc.listeners)
      (clickScript "button_0" "f0") = true ∧
    strContains (String.intercalate "\n\n" twoRenderDoc.listeners)
      (clickScript "button_1" "f1") = true := by
  refine ⟨?_, by rfl, by rfl, by rfl, by decide, by decide⟩
  intro env fuel d tree out h
  simp only [renderToDynamicMarkup] at h
  cases hre : renderToString env fuel tree (RState.mk d.identifier d.listeners) with
  | none => rw [hre] at h; simp at h
  | some p =>
    rw [hre] at h
    obtain ⟨content, st⟩ := p
    simp only at h
    cases h
    obtain ⟨ms, hid, hlist, _⟩ :=
      renderToString_mint env fuel tree (RState.mk d.identifier d.listeners)
        (content, st) hre
    simp only at hid hlist
    refine ⟨by simp; omega, scriptsOf d.identifier ms, by simpa using hlist⟩

theorem c10_state_accumulation_witness :
    freshDocument.identifier ≤ oneRenderDoc.identifier ∧
    ∃ tail, oneRenderDoc.listeners = freshDocument.listeners ++ tail :=
  c10_state_accumulation.1 envNone 10 freshDocument (buttonOnClick "f0")
    (documentShell oneRenderDoc
      "<button data-identifier=\"button_0\" data-listeners=\"click\"></button>",
     oneRenderDoc)
    (by rfl)
